import Mathlib

/-!
Verification of the statistics core and configuration-matrix generator of a
benchmark-orchestration harness.

The embedding follows the Python source:
* `RunningStats` (`stats.py`): Welford online mean/variance accumulator.
* `RunningGeometricStats` (`stats.py`): log-space wrapper reporting geometric
  mean and geometric standard deviation; `push` evaluates `math.log x` first,
  which raises a domain error on non-positive input before any state changes.
* `Bencher` (`bencher.py`): sample recorder appending `(label, elapsed)`
  records; the scoped timer appends in a `finally` block, so also on abnormal
  exit.
* `get_text_matrix` / `DRIVER_DEFAULTS` (`drivers/config.py`): Cartesian
  configuration matrix with per-driver default merging, `"off"` compression
  mapped to null.
* `compare` (`cli.py`): comparative reporter grouping all samples by the
  distinct values of one configuration dimension.

Python floats are modelled as exact reals; machine integers as `Int`/`Nat`.
-/

noncomputable section

/-- State of the Welford accumulator (`RunningStats` in `stats.py`):
`mean` is `None` until the first push, `S` the running sum of squared
deviations, `k` the number of pushed values. -/
structure RunningStats where
  mean : Option ℝ
  S : ℝ
  k : ℕ

/-- A fresh accumulator: `mean=None, S=0, k=0`. -/
def RunningStats.init : RunningStats := ⟨none, 0, 0⟩

/-- `RunningStats.push`: increment `k`; on the first value set `mean := x`,
otherwise apply the Welford update using the already incremented `k`. -/
def RunningStats.push (s : RunningStats) (x : ℝ) : RunningStats :=
  let k := s.k + 1
  match s.mean with
  | none => { mean := some x, S := s.S, k := k }
  | some m =>
      let delta := x - m
      let mean := m + delta / (k : ℝ)
      { mean := some mean, S := s.S + delta * (x - mean), k := k }

/-- Push a whole list, left to right. -/
def RunningStats.pushList (s : RunningStats) (xs : List ℝ) : RunningStats :=
  xs.foldl RunningStats.push s

/-- `RunningStats.variance`: `S / (k - 1)` when `k > 1`, else `0`. -/
def RunningStats.variance (s : RunningStats) : ℝ :=
  if 1 < s.k then s.S / ((s.k : ℝ) - 1) else 0

/-- `RunningStats.standard_deviation`: square root of the variance. -/
def RunningStats.standard_deviation (s : RunningStats) : ℝ :=
  Real.sqrt s.variance

/-- Spec-side batch definition: the arithmetic mean of a list. -/
def batchMean (xs : List ℝ) : ℝ := xs.sum / (xs.length : ℝ)

/-- Spec-side batch definition: the textbook two-pass unbiased sample
variance (sum to get the mean, then sum of squared deviations divided by
`count - 1`). -/
def twoPassSampleVariance (xs : List ℝ) : ℝ :=
  (xs.map (fun a => (a - batchMean xs) ^ 2)).sum / ((xs.length : ℝ) - 1)

lemma RunningStats.pushList_append (s : RunningStats) (xs : List ℝ) (x : ℝ) :
    RunningStats.pushList s (xs ++ [x]) =
      RunningStats.push (RunningStats.pushList s xs) x := by
  simp [RunningStats.pushList, List.foldl_append]

lemma RunningStats.push_some (s : RunningStats) (m x : ℝ) (hm : s.mean = some m) :
    RunningStats.push s x =
      { mean := some (m + (x - m) / ((s.k : ℝ) + 1)),
        S := s.S + (x - m) * (x - (m + (x - m) / ((s.k : ℝ) + 1))),
        k := s.k + 1 } := by
  simp [RunningStats.push, hm]

/-- Closed form of the accumulator state after pushing a nonempty list into a
fresh accumulator: the mean field is the arithmetic mean, the `S` field is
`Σ a² - (Σ a)² / n`, and `k` is the length. -/
lemma RunningStats.pushList_eq (xs : List ℝ) (h : xs ≠ []) :
    RunningStats.pushList RunningStats.init xs =
      { mean := some (xs.sum / (xs.length : ℝ)),
        S := (xs.map (fun a => a ^ 2)).sum - xs.sum ^ 2 / (xs.length : ℝ),
        k := xs.length } := by
  induction xs using List.reverseRecOn with
  | nil => exact absurd rfl h
  | append_singleton ys y ih =>
      rcases eq_or_ne ys [] with hys | hys
      · subst hys
        simp [RunningStats.pushList, RunningStats.push, RunningStats.init]
      · have hn : (0 : ℝ) < (ys.length : ℝ) := by
          exact_mod_cast List.length_pos.mpr hys
        have hn0 : (ys.length : ℝ) ≠ 0 := ne_of_gt hn
        have hn1 : (ys.length : ℝ) + 1 ≠ 0 := by positivity
        rw [RunningStats.pushList_append, ih hys]
        rw [RunningStats.push_some _ (ys.sum / (ys.length : ℝ)) y rfl]
        simp only [RunningStats.mk.injEq, List.sum_append, List.length_append,
          List.map_append, List.sum_cons, List.sum_nil, List.map_cons,
          List.map_nil, List.length_cons, List.length_nil]
        push_cast
        refine ⟨?_, ?_, trivial⟩
        · congr 1
          field_simp
          ring
        · field_simp
          ring

lemma sum_map_sq_sub (xs : List ℝ) (c : ℝ) :
    (xs.map (fun a => (a - c) ^ 2)).sum =
      (xs.map (fun a => a ^ 2)).sum - 2 * c * xs.sum + (xs.length : ℝ) * c ^ 2 := by
  induction xs with
  | nil => simp
  | cons y ys ih =>
      simp only [List.map_cons, List.sum_cons, List.length_cons, ih]
      push_cast
      ring

lemma twoPassSampleVariance_eq (xs : List ℝ) (h : xs ≠ []) :
    twoPassSampleVariance xs =
      ((xs.map (fun a => a ^ 2)).sum - xs.sum ^ 2 / (xs.length : ℝ)) /
        ((xs.length : ℝ) - 1) := by
  have hn : (0 : ℝ) < (xs.length : ℝ) := by
    exact_mod_cast List.length_pos.mpr h
  have hn0 : (xs.length : ℝ) ≠ 0 := ne_of_gt hn
  unfold twoPassSampleVariance batchMean
  rw [sum_map_sq_sub]
  congr 1
  field_simp
  ring

/-- C1: after pushing any finite sequence into a fresh `RunningStats`, the
`mean` field is the arithmetic mean of the pushed values, and for sequences
of length at least two `variance` equals the textbook two-pass unbiased
sample variance — the online Welford update refines the closed-form batch
computation exactly, over exact real arithmetic. -/
theorem welford_refines_batch (xs : List ℝ) :
    (xs ≠ [] →
      (RunningStats.pushList RunningStats.init xs).mean = some (batchMean xs)) ∧
    (2 ≤ xs.length →
      (RunningStats.pushList RunningStats.init xs).variance =
        twoPassSampleVariance xs) := by
  constructor
  · intro h
    rw [RunningStats.pushList_eq xs h]
    rfl
  · intro h2
    have h : xs ≠ [] := by
      intro hnil
      rw [hnil] at h2
      simp at h2
    rw [RunningStats.pushList_eq xs h, twoPassSampleVariance_eq xs h]
    have hk : 1 < xs.length := by omega
    simp [RunningStats.variance, hk]

/-- Witness for C1 at the concrete input `[1, 2, 4]`. -/
theorem welford_refines_batch_witness :
    (RunningStats.pushList RunningStats.init [1, 2, 4]).mean =
        some (batchMean [1, 2, 4]) ∧
      (RunningStats.pushList RunningStats.init [1, 2, 4]).variance =
        twoPassSampleVariance [1, 2, 4] :=
  ⟨(welford_refines_batch [1, 2, 4]).1 (by simp),
   (welford_refines_batch [1, 2, 4]).2 (by simp)⟩

/-- C6: boundary behaviour of the accumulator — a fresh accumulator has
`mean = none` and `variance = 0`; after one push of `v` the mean is `v` and
the variance is `0`; and in general `variance` is `S / (k - 1)` exactly when
`k > 1` and `0` otherwise, so the `count - 1` division is guarded. -/
theorem running_stats_boundary :
    RunningStats.init.mean = none ∧
    RunningStats.init.variance = 0 ∧
    (∀ v : ℝ, (RunningStats.init.push v).mean = some v ∧
      (RunningStats.init.push v).variance = 0) ∧
    (∀ s : RunningStats,
      s.variance = if 1 < s.k then s.S / ((s.k : ℝ) - 1) else 0) := by
  refine ⟨rfl, rfl, ?_, fun s => rfl⟩
  intro v
  constructor
  · rfl
  · rfl

/-- C9: after any finite sequence of pushes into a fresh accumulator, the
accumulated sum of squared deviations `S` is non-negative, hence the
variance is non-negative and the standard deviation squares back to the
variance — the square root is never taken of a negative argument. -/
theorem running_stats_S_nonneg (xs : List ℝ) :
    0 ≤ (RunningStats.pushList RunningStats.init xs).S ∧
    0 ≤ (RunningStats.pushList RunningStats.init xs).variance ∧
    (RunningStats.pushList RunningStats.init xs).standard_deviation ^ 2 =
      (RunningStats.pushList RunningStats.init xs).variance := by
  have hS : 0 ≤ (RunningStats.pushList RunningStats.init xs).S := by
    rcases eq_or_ne xs [] with h | h
    · subst h
      simp [RunningStats.pushList, RunningStats.init]
    · rw [RunningStats.pushList_eq xs h]
      have hn : (0 : ℝ) < (xs.length : ℝ) := by
        exact_mod_cast List.length_pos.mpr h
      have key : (xs.map (fun a => a ^ 2)).sum - xs.sum ^ 2 / (xs.length : ℝ) =
          (xs.map (fun a => (a - batchMean xs) ^ 2)).sum := by
        rw [sum_map_sq_sub]
        unfold batchMean
        field_simp
        ring
      show 0 ≤ (xs.map (fun a => a ^ 2)).sum - xs.sum ^ 2 / (xs.length : ℝ)
      rw [key]
      apply List.sum_nonneg
      intro a ha
      rcases List.mem_map.mp ha with ⟨b, _, hb⟩
      rw [← hb]
      positivity
  have hv : 0 ≤ (RunningStats.pushList RunningStats.init xs).variance := by
    unfold RunningStats.variance
    split
    · rename_i hk
      apply div_nonneg hS
      have : (1 : ℝ) < ((RunningStats.pushList RunningStats.init xs).k : ℝ) := by
        exact_mod_cast hk
      linarith
    · exact le_refl 0
  exact ⟨hS, hv, Real.sq_sqrt hv⟩

/-- Python's `math.log`: defined only on positive reals; on `x <= 0` it
raises `ValueError: math domain error`, modelled as `none`. -/
def mathLog (x : ℝ) : Option ℝ :=
  if 0 < x then some (Real.log x) else none

/-- `RunningGeometricStats` from `stats.py`: wraps one `RunningStats` that
accumulates the logarithms of the pushed values. -/
structure RunningGeometricStats where
  inner : RunningStats

/-- A fresh adapter around a fresh inner accumulator. -/
def RunningGeometricStats.init : RunningGeometricStats := ⟨RunningStats.init⟩

/-- `RunningGeometricStats.push`: the body is `self.inner.push(math.log(x))`;
the argument `math.log x` is evaluated before `inner.push` runs, so a domain
error propagates with the state exactly as it was. The boolean records
whether the call succeeded. -/
def RunningGeometricStats.push (g : RunningGeometricStats) (x : ℝ) :
    RunningGeometricStats × Bool :=
  match mathLog x with
  | none => (g, false)
  | some l => (⟨g.inner.push l⟩, true)

/-- Push a list of values; a domain error aborts the rest of the pushes with
the state reached so far, as the raised exception would. -/
def RunningGeometricStats.pushAll (g : RunningGeometricStats) :
    List ℝ → RunningGeometricStats × Bool
  | [] => (g, true)
  | x :: rest =>
      match mathLog x with
      | none => (g, false)
      | some l => RunningGeometricStats.pushAll ⟨g.inner.push l⟩ rest

/-- `RunningGeometricStats.mean`: `None` when nothing was pushed, otherwise
`exp` of the inner (log-space) mean. -/
def RunningGeometricStats.mean (g : RunningGeometricStats) : Option ℝ :=
  g.inner.mean.map Real.exp

/-- `RunningGeometricStats.standard_deviation`: `exp` of the inner standard
deviation. -/
def RunningGeometricStats.standard_deviation (g : RunningGeometricStats) : ℝ :=
  Real.exp g.inner.standard_deviation

/-- C2: pushing any `x <= 0` into the geometric adapter fails with a domain
error and leaves every component of the previously accumulated state —
count, mean and sum of squared deviations — unchanged; the value is never
coerced or clamped. -/
theorem geometric_push_rejects_nonpositive
    (g : RunningGeometricStats) (x : ℝ) (h : x ≤ 0) :
    (g.push x).2 = false ∧
    (g.push x).1.inner.k = g.inner.k ∧
    (g.push x).1.inner.mean = g.inner.mean ∧
    (g.push x).1.inner.S = g.inner.S ∧
    (g.push x).1 = g := by
  have hlog : mathLog x = none := by
    unfold mathLog
    rw [if_neg (not_lt.mpr h)]
  unfold RunningGeometricStats.push
  rw [hlog]
  exact ⟨rfl, rfl, rfl, rfl, rfl⟩

/-- Witness for C2: rejecting `push 0` on a state that already absorbed one
successful push leaves that state untouched. -/
theorem geometric_push_rejects_nonpositive_witness :
    ((RunningGeometricStats.pushAll RunningGeometricStats.init [2]).1.push 0).2 = false ∧
    ((RunningGeometricStats.pushAll RunningGeometricStats.init [2]).1.push 0).1.inner.k =
      (RunningGeometricStats.pushAll RunningGeometricStats.init [2]).1.inner.k ∧
    ((RunningGeometricStats.pushAll RunningGeometricStats.init [2]).1.push 0).1.inner.mean =
      (RunningGeometricStats.pushAll RunningGeometricStats.init [2]).1.inner.mean ∧
    ((RunningGeometricStats.pushAll RunningGeometricStats.init [2]).1.push 0).1.inner.S =
      (RunningGeometricStats.pushAll RunningGeometricStats.init [2]).1.inner.S ∧
    ((RunningGeometricStats.pushAll RunningGeometricStats.init [2]).1.push 0).1 =
      (RunningGeometricStats.pushAll RunningGeometricStats.init [2]).1 :=
  geometric_push_rejects_nonpositive
    (RunningGeometricStats.pushAll RunningGeometricStats.init [2]).1 0 (le_refl 0)

lemma RunningGeometricStats.pushAll_pos (xs : List ℝ) (hpos : ∀ x ∈ xs, 0 < x) :
    ∀ g : RunningGeometricStats,
      RunningGeometricStats.pushAll g xs =
        (⟨g.inner.pushList (xs.map Real.log)⟩, true) := by
  induction xs with
  | nil =>
      intro g
      simp [RunningGeometricStats.pushAll, RunningStats.pushList]
  | cons y ys ih =>
      intro g
      have hy : 0 < y := hpos y (List.mem_cons_self y ys)
      have hlog : mathLog y = some (Real.log y) := by
        unfold mathLog
        rw [if_pos hy]
      have hrest : ∀ x ∈ ys, 0 < x := fun x hx => hpos x (List.mem_cons_of_mem y hx)
      simp only [RunningGeometricStats.pushAll, hlog]
      rw [ih hrest]
      simp [RunningStats.pushList]

lemma sum_map_log (xs : List ℝ) (hpos : ∀ x ∈ xs, 0 < x) :
    (xs.map Real.log).sum = Real.log xs.prod := by
  induction xs with
  | nil => simp
  | cons y ys ih =>
      have hy : 0 < y := hpos y (List.mem_cons_self y ys)
      have hrest : ∀ x ∈ ys, 0 < x := fun x hx => hpos x (List.mem_cons_of_mem y hx)
      have hprod : 0 < ys.prod := List.prod_pos hrest
      simp only [List.map_cons, List.sum_cons, List.prod_cons, ih hrest]
      rw [Real.log_mul (ne_of_gt hy) (ne_of_gt hprod)]

/-- C3: pushing a nonempty sequence of positive reals into a fresh geometric
adapter yields a geometric mean equal both to `exp` of the arithmetic mean of
the logarithms and to `(product of the inputs) ^ (1/n)`; with no pushes the
geometric mean is `none`; and the geometric standard deviation is always
`exp` of the inner accumulator's standard deviation. -/
theorem geometric_mean_correct (xs : List ℝ) (hpos : ∀ x ∈ xs, 0 < x) :
    (xs ≠ [] →
      (RunningGeometricStats.pushAll RunningGeometricStats.init xs).1.mean =
          some (Real.exp ((xs.map Real.log).sum / (xs.length : ℝ))) ∧
      (RunningGeometricStats.pushAll RunningGeometricStats.init xs).1.mean =
          some (xs.prod ^ ((1 : ℝ) / (xs.length : ℝ)))) ∧
    RunningGeometricStats.init.mean = none ∧
    (∀ g : RunningGeometricStats,
      g.standard_deviation = Real.exp g.inner.standard_deviation) := by
  refine ⟨?_, rfl, fun g => rfl⟩
  intro hne
  have hmap : xs.map Real.log ≠ [] := by
    simpa using hne
  have hmean :
      (RunningGeometricStats.pushAll RunningGeometricStats.init xs).1.mean =
        some (Real.exp ((xs.map Real.log).sum / (xs.length : ℝ))) := by
    rw [RunningGeometricStats.pushAll_pos xs hpos RunningGeometricStats.init]
    show (RunningStats.pushList RunningStats.init (xs.map Real.log)).mean.map
        Real.exp = _
    rw [RunningStats.pushList_eq (xs.map Real.log) hmap]
    simp
  refine ⟨hmean, ?_⟩
  rw [hmean]
  have hprod : 0 < xs.prod := List.prod_pos hpos
  rw [sum_map_log xs hpos, Real.rpow_def_of_pos hprod, mul_one_div]

/-- Witness for C3 at the concrete input `[2, 8]`. -/
theorem geometric_mean_correct_witness :
    (RunningGeometricStats.pushAll RunningGeometricStats.init [2, 8]).1.mean =
        some (Real.exp ((([2, 8] : List ℝ).map Real.log).sum /
          ((([2, 8] : List ℝ).length : ℕ) : ℝ))) ∧
    (RunningGeometricStats.pushAll RunningGeometricStats.init [2, 8]).1.mean =
        some (([2, 8] : List ℝ).prod ^
          ((1 : ℝ) / ((([2, 8] : List ℝ).length : ℕ) : ℝ))) :=
  ⟨((geometric_mean_correct [2, 8] (by norm_num)).1 (by simp)).1,
   ((geometric_mean_correct [2, 8] (by norm_num)).1 (by simp)).2⟩

/-- One recorded sample: a label and an elapsed time. -/
structure BenchSample where
  label : String
  elapsed : ℝ

/-- How the body of a timed scope exited: normally, or by raising. -/
inductive Outcome where
  | ok : Outcome
  | raised : Outcome

/-- The sample recorder from `bencher.py`: an ordered result list. -/
structure Bencher where
  results : List BenchSample

/-- `Bencher.push`: append one sample at the end of the result list. -/
def Bencher.push (b : Bencher) (label : String) (elapsed : ℝ) : Bencher :=
  { results := b.results ++ [⟨label, elapsed⟩] }

/-- `Bencher.bench`: the scoped timer. The body runs between the `start` and
`stop` clock readings and exits with `outcome`; the `finally` block always
runs `push label (stop - start)`, and the outcome then propagates to the
caller unchanged. -/
def Bencher.bench (b : Bencher) (label : String) (start stop : ℝ)
    (outcome : Outcome) : Bencher × Outcome :=
  (b.push label (stop - start), outcome)

/-- One executed timed scope: its label, clock readings, and how its body
exited. -/
structure Scope where
  label : String
  start : ℝ
  stop : ℝ
  outcome : Outcome

/-- Run a sequence of timed scopes against one recorder. -/
def Bencher.benchRun (b : Bencher) (scopes : List Scope) : Bencher :=
  scopes.foldl
    (fun acc sc => (acc.bench sc.label sc.start sc.stop sc.outcome).1) b

/-- C7: every timed scope appends exactly one sample, labelled with the
scope's label, at the end of the recorder's result list — also when the body
raises, in which case the error still propagates — and a run of scopes
appends one sample per scope in scope-exit order. -/
theorem bench_appends_one_sample :
    (∀ (b : Bencher) (label : String) (start stop : ℝ) (outcome : Outcome),
      (b.bench label start stop outcome).1.results =
          b.results ++ [⟨label, stop - start⟩] ∧
      (b.bench label start stop outcome).2 = outcome) ∧
    (∀ (b : Bencher) (scopes : List Scope),
      (b.benchRun scopes).results =
        b.results ++ scopes.map (fun sc => ⟨sc.label, sc.stop - sc.start⟩)) := by
  constructor
  · intro b label start stop outcome
    exact ⟨rfl, rfl⟩
  · intro b scopes
    induction scopes generalizing b with
    | nil => simp [Bencher.benchRun]
    | cons sc rest ih =>
        show (Bencher.benchRun
            (Bencher.mk (b.results ++ [⟨sc.label, sc.stop - sc.start⟩]))
            rest).results = _
        rw [ih]
        simp

/-- A scalar value of one configuration dimension: string, integer, boolean,
or Python `None`. -/
inductive ConfigValue where
  | str : String → ConfigValue
  | int : Int → ConfigValue
  | bool : Bool → ConfigValue
  | null : ConfigValue
deriving DecidableEq

/-- A configuration record: a Python dict as an insertion-ordered key/value
list with unique keys. -/
abbrev ConfigRecord := List (String × ConfigValue)

/-- Dict assignment: replace the first binding of the key in place, or append
a new binding at the end. -/
def dictInsert : ConfigRecord → String → ConfigValue → ConfigRecord
  | [], k, v => [(k, v)]
  | p :: rest, k, v =>
      if p.1 = k then (k, v) :: rest else p :: dictInsert rest k v

/-- Dict lookup: the value of the first binding of the key, if any. -/
def dictLookup : ConfigRecord → String → Option ConfigValue
  | [], _ => none
  | p :: rest, k => if p.1 = k then some p.2 else dictLookup rest k

/-- Key membership in a record. -/
def hasKey (d : ConfigRecord) (k : String) : Bool :=
  (dictLookup d k).isSome

/-- `DRIVER_DEFAULTS` from `drivers/config.py`: fixed per-driver defaults
merged into every record before the explicit dimensions. -/
def DRIVER_DEFAULTS (driver : String) : ConfigRecord :=
  if driver = "zerofs" then
    [("encryption", ConfigValue.bool false)]
  else if driver = "slatedb-nbd" then
    [("encryption", ConfigValue.bool true), ("ashift", ConfigValue.int 12),
     ("block_size", ConfigValue.int 4096)]
  else []

/-- A possibly absent boolean dimension value, as the code stores it. -/
def optBool : Option Bool → ConfigValue
  | none => ConfigValue.null
  | some b => ConfigValue.bool b

/-- The record yielded for one case of the Cartesian product: driver defaults
first, then the explicit dimensions (later assignments override), with
compression `"off"` mapped to `None`. -/
def mkRecord (driver compressionCase : String) (conn : Int)
    (wal cache : Option Bool) : ConfigRecord :=
  dictInsert
    (dictInsert
      (dictInsert
        (dictInsert
          (dictInsert (DRIVER_DEFAULTS driver) "driver"
            (ConfigValue.str driver))
          "compression"
          (if compressionCase = "off" then ConfigValue.null
           else ConfigValue.str compressionCase))
        "connections" (ConfigValue.int conn))
      "wal_enabled" (optBool wal))
    "object_store_cache" (optBool cache)

/-- `get_text_matrix` from `drivers/config.py`: the Cartesian product of the
requested dimensions (driver outermost, cache innermost), one record per
case. -/
def get_text_matrix (drivers compression : List String) (connections : List Int)
    (wal_enabled object_store_cache : List (Option Bool)) : List ConfigRecord :=
  drivers.flatMap fun d =>
    compression.flatMap fun c =>
      connections.flatMap fun n =>
        wal_enabled.flatMap fun w =>
          object_store_cache.map fun o => mkRecord d c n w o

lemma dictLookup_insert_self (d : ConfigRecord) (k : String) (v : ConfigValue) :
    dictLookup (dictInsert d k v) k = some v := by
  induction d with
  | nil => simp [dictInsert, dictLookup]
  | cons p rest ih =>
      by_cases h : p.1 = k
      · simp [dictInsert, dictLookup, h]
      · simp [dictInsert, dictLookup, h, ih]

lemma dictLookup_insert_ne (d : ConfigRecord) (k q : String) (v : ConfigValue)
    (h : q ≠ k) : dictLookup (dictInsert d k v) q = dictLookup d q := by
  have hk : ¬(k = q) := fun hh => h hh.symm
  induction d with
  | nil => simp [dictInsert, dictLookup, hk]
  | cons p rest ih =>
      by_cases hp : p.1 = k
      · rw [show dictInsert (p :: rest) k v = (k, v) :: rest by
          simp [dictInsert, hp]]
        have hpq : ¬(p.1 = q) := by
          rw [hp]
          exact hk
        simp [dictLookup, hk, hpq]
      · rw [show dictInsert (p :: rest) k v = p :: dictInsert rest k v by
          simp [dictInsert, hp]]
        by_cases hq : p.1 = q
        · simp [dictLookup, hq]
        · simp [dictLookup, hq, ih]

lemma mkRecord_lookup_driver (d c : String) (n : Int) (w o : Option Bool) :
    dictLookup (mkRecord d c n w o) "driver" = some (ConfigValue.str d) := by
  unfold mkRecord
  rw [dictLookup_insert_ne _ _ _ _ (by decide),
    dictLookup_insert_ne _ _ _ _ (by decide),
    dictLookup_insert_ne _ _ _ _ (by decide),
    dictLookup_insert_ne _ _ _ _ (by decide),
    dictLookup_insert_self]

lemma mkRecord_lookup_compression (d c : String) (n : Int) (w o : Option Bool) :
    dictLookup (mkRecord d c n w o) "compression" =
      some (if c = "off" then ConfigValue.null else ConfigValue.str c) := by
  unfold mkRecord
  rw [dictLookup_insert_ne _ _ _ _ (by decide),
    dictLookup_insert_ne _ _ _ _ (by decide),
    dictLookup_insert_ne _ _ _ _ (by decide),
    dictLookup_insert_self]

lemma mem_get_text_matrix {r : ConfigRecord} {ds cs : List String}
    {ns : List Int} {ws os : List (Option Bool)} :
    r ∈ get_text_matrix ds cs ns ws os ↔
      ∃ d ∈ ds, ∃ c ∈ cs, ∃ n ∈ ns, ∃ w ∈ ws, ∃ o ∈ os,
        mkRecord d c n w o = r := by
  simp [get_text_matrix]

/-- C4 counterexample: with `drivers = ["a","b"]`, `compression = ["off","zstd"]`,
`connections = [1]` and the remaining dimensions defaulted to a single null
value, the first produced record has only the five explicitly generated keys;
in particular the dimension keys `zfs_sync` and `ashift` are not present at
all (not even bound to null), refuting the claim that every record carries
all nine dimension keys. -/
theorem matrix_record_lacks_nine_keys :
    (get_text_matrix ["a", "b"] ["off", "zstd"] [1] [none] [none]).getD 0 [] =
      [("driver", ConfigValue.str "a"), ("compression", ConfigValue.null),
       ("connections", ConfigValue.int 1), ("wal_enabled", ConfigValue.null),
       ("object_store_cache", ConfigValue.null)] ∧
    hasKey ((get_text_matrix ["a", "b"] ["off", "zstd"] [1] [none] [none]).getD 0 [])
      "zfs_sync" = false ∧
    hasKey ((get_text_matrix ["a", "b"] ["off", "zstd"] [1] [none] [none]).getD 0 [])
      "ashift" = false := by
  decide

/-- C4 (amended): for `drivers=["a","b"]`, `compression=["off","zstd"]`,
`connections=[1]` and the other dimensions defaulted to a single null value,
the generator yields exactly 4 distinct records; every record carries the
five explicitly generated dimension keys (absent boolean dimensions bound to
null, compression `"off"` bound to null); per-driver defaults (encryption,
ashift, block_size for the slatedb-nbd driver) are merged into each record;
and an explicitly generated dimension always overrides a same-named default,
as the `driver` key shows for every driver. -/
theorem matrix_scenario_correct :
    (get_text_matrix ["a", "b"] ["off", "zstd"] [1] [none] [none]).length = 4 ∧
    (get_text_matrix ["a", "b"] ["off", "zstd"] [1] [none] [none]).Nodup ∧
    (∀ r ∈ get_text_matrix ["a", "b"] ["off", "zstd"] [1] [none] [none],
      r.map Prod.fst =
        ["driver", "compression", "connections", "wal_enabled",
         "object_store_cache"]) ∧
    (∀ r ∈ get_text_matrix ["slatedb-nbd"] ["zstd"] [1] [none] [none],
      dictLookup r "encryption" = some (ConfigValue.bool true) ∧
      dictLookup r "ashift" = some (ConfigValue.int 12) ∧
      dictLookup r "block_size" = some (ConfigValue.int 4096)) ∧
    (∀ (d c : String) (n : Int) (w o : Option Bool),
      dictLookup (mkRecord d c n w o) "driver" = some (ConfigValue.str d)) := by
  exact ⟨by decide, by decide, by decide, by decide, mkRecord_lookup_driver⟩

/-- Witness for the amended C4 at concrete records of the two matrices. -/
theorem matrix_scenario_correct_witness :
    (mkRecord "a" "off" 1 none none).map Prod.fst =
        ["driver", "compression", "connections", "wal_enabled",
         "object_store_cache"] ∧
    dictLookup (mkRecord "slatedb-nbd" "zstd" 1 none none) "encryption" =
        some (ConfigValue.bool true) :=
  ⟨matrix_scenario_correct.2.2.1 (mkRecord "a" "off" 1 none none) (by decide),
   (matrix_scenario_correct.2.2.2.1 (mkRecord "slatedb-nbd" "zstd" 1 none none)
      (by decide)).1⟩

/-- C10: the string `"off"` never appears as the compression value of any
produced record; a record generated from compression case `"off"` binds the
compression key to null — exactly the value used for an absent dimension
(`optBool none`), so such a record is indistinguishable in that field from
one whose compression dimension was absent. -/
theorem compression_off_maps_to_null :
    (∀ (ds cs : List String) (ns : List Int) (ws os : List (Option Bool))
        (r : ConfigRecord), r ∈ get_text_matrix ds cs ns ws os →
      dictLookup r "compression" ≠ some (ConfigValue.str "off")) ∧
    (∀ (d : String) (n : Int) (w o : Option Bool),
      dictLookup (mkRecord d "off" n w o) "compression" =
          some ConfigValue.null ∧
      dictLookup (mkRecord d "off" n w o) "compression" =
          some (optBool none)) := by
  constructor
  · intro ds cs ns ws os r hr
    rcases mem_get_text_matrix.mp hr with ⟨d, _, c, _, n, _, w, _, o, _, heq⟩
    rw [← heq, mkRecord_lookup_compression]
    intro hcontra
    by_cases hc : c = "off"
    · rw [if_pos hc] at hcontra
      exact absurd hcontra (by decide)
    · rw [if_neg hc] at hcontra
      exact hc (ConfigValue.str.inj (Option.some.inj hcontra))
  · intro d n w o
    constructor
    · rw [mkRecord_lookup_compression]
      simp
    · rw [mkRecord_lookup_compression]
      simp [optBool]

/-- Witness for C10 at a concrete record. -/
theorem compression_off_maps_to_null_witness :
    dictLookup (mkRecord "a" "off" 1 none none) "compression" ≠
        some (ConfigValue.str "off") ∧
    dictLookup (mkRecord "a" "off" 1 none none) "compression" =
        some ConfigValue.null :=
  ⟨compression_off_maps_to_null.1 ["a"] ["off"] [1] [none] [none]
      (mkRecord "a" "off" 1 none none) (by decide),
   (compression_off_maps_to_null.2 "a" 1 none none).1⟩

/-- A Python generator over the matrix: iterating consumes it. -/
structure MatrixIterator where
  remaining : List ConfigRecord

/-- The generator object returned by one call of the matrix generator. -/
def MatrixIterator.ofMatrix (rs : List ConfigRecord) : MatrixIterator := ⟨rs⟩

/-- A full `for` pass over the generator: yields everything that remains and
leaves the generator exhausted. -/
def MatrixIterator.exhaust (it : MatrixIterator) :
    List ConfigRecord × MatrixIterator :=
  (it.remaining, ⟨[]⟩)

/-- C8 counterexample: the generator object returned by the matrix generator
is single-pass — a second full iteration of the same (now exhausted)
generator yields the empty sequence, not the first sequence again. -/
theorem matrix_generator_single_pass :
    (MatrixIterator.ofMatrix
        (get_text_matrix ["a"] ["off"] [1] [none] [none])).exhaust.1 ≠
      ((MatrixIterator.ofMatrix
        (get_text_matrix ["a"] ["off"] [1] [none] [none])).exhaust.2).exhaust.1 := by
  decide

lemma length_flatMap_const {α β : Type} (l : List α) (f : α → List β) (c : ℕ)
    (h : ∀ a ∈ l, (f a).length = c) : (l.flatMap f).length = l.length * c := by
  induction l with
  | nil => simp
  | cons x xs ih =>
      simp only [List.flatMap_cons, List.length_append, List.length_cons]
      rw [h x (List.mem_cons_self x xs),
        ih (fun a ha => h a (List.mem_cons_of_mem x ha))]
      ring

/-- C8 (amended): the sequence produced by one call of the matrix generator
is finite — its length is the product of the dimension list lengths — and
generation is deterministic with no internal mutable state, so one full
iteration of a freshly created generator always yields exactly that
sequence; the generator object itself, however, is single-pass. -/
theorem matrix_finite_and_deterministic
    (ds cs : List String) (ns : List Int) (ws os : List (Option Bool)) :
    (get_text_matrix ds cs ns ws os).length =
      ds.length * (cs.length * (ns.length * (ws.length * os.length))) ∧
    (MatrixIterator.ofMatrix (get_text_matrix ds cs ns ws os)).exhaust.1 =
      get_text_matrix ds cs ns ws os := by
  refine ⟨?_, rfl⟩
  unfold get_text_matrix
  apply length_flatMap_const
  intro d _
  apply length_flatMap_const
  intro c _
  apply length_flatMap_const
  intro n _
  apply length_flatMap_const
  intro w _
  exact List.length_map _ _


/-- A Python runtime error of the reporting pass: a config missing the
dimension key (`KeyError`), `sorted` over values of incomparable types
(`TypeError`), or `math.log` of a non-positive sample (`ValueError`). -/
inductive PyError where
  | keyError : PyError
  | typeError : PyError
  | valueError : PyError
deriving DecidableEq

/-- Python comparability class of a configuration value: `None` compares
with nothing, booleans and integers compare with each other, strings only
with strings. -/
def ConfigValue.pyClass : ConfigValue → ℕ
  | ConfigValue.null => 0
  | ConfigValue.bool _ => 1
  | ConfigValue.int _ => 1
  | ConfigValue.str _ => 2

/-- Numeric value of a boolean or integer configuration value (Python has
`False == 0` and `True == 1`). -/
def ConfigValue.pyNum : ConfigValue → Int
  | ConfigValue.bool b => if b then 1 else 0
  | ConfigValue.int n => n
  | _ => 0

/-- Comparison backing the reporter's `sorted`: strings by the
character-list lexicographic order that defines `String.lt`,
booleans/integers by numeric value. It is only ever applied to values of
one comparability class — on a mixed-class value set the reporter raises
`TypeError` before any comparison (see `compareValues`), and a lone null is
never compared. -/
def cvLE (a b : ConfigValue) : Bool :=
  match a, b with
  | ConfigValue.str x, ConfigValue.str y => !decide (y.data < x.data)
  | _, _ => decide (a.pyNum ≤ b.pyNum)

/-- Insert into a sorted list of values. -/
def sortedInsert (v : ConfigValue) : List ConfigValue → List ConfigValue
  | [] => [v]
  | w :: rest => if cvLE v w then v :: w :: rest else w :: sortedInsert v rest

/-- `sorted` over a list of dimension values of one comparability class. -/
def sortValues (l : List ConfigValue) : List ConfigValue :=
  l.foldr sortedInsert []

/-- Whether Python can sort this value set: `sorted` raises `TypeError` as
soon as it compares two values of different comparability classes, which on
a deduplicated set happens exactly when more than one class is present (a
set with at most one element is never compared at all). -/
def allComparable : List ConfigValue → Bool
  | [] => true
  | v :: rest => rest.all (fun w => decide (w.pyClass = v.pyClass))

/-- One run's outcome: its configuration record and its ordered samples. -/
structure RunResult where
  config : ConfigRecord
  tests : List BenchSample

/-- The reporter's value-collection loop
(`for result in results: values.add(result["config"][key])`): a config
lacking the dimension key raises `KeyError` at that point. -/
def collectValues : List RunResult → String → Except PyError (List ConfigValue)
  | [], _ => Except.ok []
  | r :: rest, key =>
      match dictLookup r.config key with
      | none => Except.error PyError.keyError
      | some v =>
          match collectValues rest key with
          | Except.error e => Except.error e
          | Except.ok vs => Except.ok (v :: vs)

/-- Every sample elapsed time fed to the adapter of value `v`: all samples
of all results whose config carries that value, in results order. -/
def gatherElapsed (results : List RunResult) (key : String) (v : ConfigValue) :
    List ℝ :=
  ((results.filter (fun r => dictLookup r.config key == some v)).flatMap
    (fun r => r.tests)).map (fun t => t.elapsed)

/-- The reporting pass once the dimension values are collected: `sorted`
raises `TypeError` on a mixed-class value set; with more than one distinct
value, one fresh geometric adapter per value (in sorted order) absorbs its
gathered samples — a non-positive elapsed raises the `ValueError` of
`math.log` — and the summaries are reported; with at most one distinct
value there is no comparison output. -/
def compareValues (results : List RunResult) (key : String)
    (vals : List ConfigValue) :
    Except PyError (Option (List (ConfigValue × Option ℝ × ℝ))) :=
  if allComparable vals.dedup then
    if 1 < (sortValues vals.dedup).length then
      if ((sortValues vals.dedup).map
          (fun v => RunningGeometricStats.pushAll RunningGeometricStats.init
            (gatherElapsed results key v))).all (fun p => p.2) then
        Except.ok (some ((sortValues vals.dedup).map (fun v =>
          (v,
           ((RunningGeometricStats.pushAll RunningGeometricStats.init
              (gatherElapsed results key v)).1).mean,
           ((RunningGeometricStats.pushAll RunningGeometricStats.init
              (gatherElapsed results key v)).1).standard_deviation))))
      else Except.error PyError.valueError
    else Except.ok none
  else Except.error PyError.typeError

/-- The `compare` closure of the CLI reporting pass, with its Python error
paths explicit. -/
def cliCompare (results : List RunResult) (key : String) :
    Except PyError (Option (List (ConfigValue × Option ℝ × ℝ))) :=
  match collectValues results key with
  | Except.error e => Except.error e
  | Except.ok vals => compareValues results key vals

lemma sortedInsert_length (v : ConfigValue) (l : List ConfigValue) :
    (sortedInsert v l).length = l.length + 1 := by
  induction l with
  | nil => rfl
  | cons w rest ih =>
      by_cases h : cvLE v w
      · simp [sortedInsert, h]
      · simp [sortedInsert, h, ih]

lemma sortValues_length (l : List ConfigValue) :
    (sortValues l).length = l.length := by
  induction l with
  | nil => rfl
  | cons v rest ih =>
      show (sortedInsert v (sortValues rest)).length = rest.length + 1
      rw [sortedInsert_length, ih]

lemma mem_sortedInsert (a v : ConfigValue) (l : List ConfigValue) :
    a ∈ sortedInsert v l ↔ a = v ∨ a ∈ l := by
  induction l with
  | nil => simp [sortedInsert]
  | cons w rest ih =>
      by_cases h : cvLE v w
      · simp [sortedInsert, h]
      · simp only [sortedInsert, h, if_neg, Bool.false_eq_true, if_false,
          List.mem_cons, ih]
        tauto

lemma mem_sortValues (a : ConfigValue) (l : List ConfigValue) :
    a ∈ sortValues l ↔ a ∈ l := by
  induction l with
  | nil => simp [sortValues]
  | cons v rest ih =>
      show a ∈ sortedInsert v (sortValues rest) ↔ _
      rw [mem_sortedInsert]
      simp [ih]

lemma collectValues_ok (results : List RunResult) (key : String)
    (hk : ∀ r ∈ results, hasKey r.config key = true) :
    collectValues results key =
      Except.ok (results.filterMap (fun r => dictLookup r.config key)) := by
  induction results with
  | nil => rfl
  | cons r rest ih =>
      obtain ⟨v, hv⟩ : ∃ v, dictLookup r.config key = some v := by
        have h1 := hk r (List.mem_cons_self r rest)
        unfold hasKey at h1
        exact Option.isSome_iff_exists.mp h1
      have hrest := ih (fun x hx => hk x (List.mem_cons_of_mem r hx))
      simp [collectValues, hv, hrest, List.filterMap_cons]

lemma allComparable_short (l : List ConfigValue) (h : l.length ≤ 1) :
    allComparable l = true := by
  cases l with
  | nil => rfl
  | cons v rest =>
      cases rest with
      | nil => rfl
      | cons w rest2 => simp at h

lemma gatherElapsed_pos (results : List RunResult) (key : String)
    (v : ConfigValue)
    (hpos : ∀ r ∈ results, ∀ t ∈ r.tests, 0 < t.elapsed) :
    ∀ x ∈ gatherElapsed results key v, 0 < x := by
  intro x hx
  unfold gatherElapsed at hx
  rcases List.mem_map.mp hx with ⟨t, ht, rfl⟩
  rcases List.mem_flatMap.mp ht with ⟨r, hr, htr⟩
  exact hpos r (List.mem_of_mem_filter hr) t htr

lemma gatherElapsed_ne_nil (results : List RunResult) (key : String)
    (v : ConfigValue)
    (hne : ∀ r ∈ results, r.tests ≠ [])
    (hv : v ∈ (results.filterMap (fun r => dictLookup r.config key)).dedup) :
    gatherElapsed results key v ≠ [] := by
  rw [List.mem_dedup] at hv
  rcases List.mem_filterMap.mp hv with ⟨r, hr, hlook⟩
  obtain ⟨t, ht⟩ := List.exists_mem_of_ne_nil r.tests (hne r hr)
  apply List.ne_nil_of_mem (a := t.elapsed)
  unfold gatherElapsed
  apply List.mem_map.mpr
  refine ⟨t, ?_, rfl⟩
  apply List.mem_flatMap.mpr
  refine ⟨r, ?_, ht⟩
  apply List.mem_filter.mpr
  refine ⟨hr, ?_⟩
  simp [hlook]

lemma pushAll_gather_spec (results : List RunResult) (key : String)
    (v : ConfigValue)
    (hpos : ∀ x ∈ gatherElapsed results key v, 0 < x)
    (hne : gatherElapsed results key v ≠ []) :
    RunningGeometricStats.pushAll RunningGeometricStats.init
        (gatherElapsed results key v) =
      (⟨RunningStats.pushList RunningStats.init
          ((gatherElapsed results key v).map Real.log)⟩, true) ∧
    ((RunningGeometricStats.pushAll RunningGeometricStats.init
        (gatherElapsed results key v)).1).mean =
      some (Real.exp (batchMean ((gatherElapsed results key v).map Real.log))) ∧
    ((RunningGeometricStats.pushAll RunningGeometricStats.init
        (gatherElapsed results key v)).1).standard_deviation =
      Real.exp (Real.sqrt
        (if 2 ≤ (gatherElapsed results key v).length
         then twoPassSampleVariance ((gatherElapsed results key v).map Real.log)
         else 0)) := by
  have h1 := RunningGeometricStats.pushAll_pos (gatherElapsed results key v)
    hpos RunningGeometricStats.init
  have hmapne : (gatherElapsed results key v).map Real.log ≠ [] := by
    simpa using hne
  have hlen : ((gatherElapsed results key v).map Real.log).length =
      (gatherElapsed results key v).length := List.length_map _ _
  refine ⟨h1, ?_, ?_⟩
  · rw [h1]
    show (RunningStats.pushList RunningStats.init
      ((gatherElapsed results key v).map Real.log)).mean.map Real.exp = _
    rw [RunningStats.pushList_eq _ hmapne]
    simp [batchMean]
  · rw [h1]
    show Real.exp (RunningStats.pushList RunningStats.init
      ((gatherElapsed results key v).map Real.log)).standard_deviation = _
    congr 1
    unfold RunningStats.standard_deviation
    congr 1
    by_cases h2 : 2 ≤ (gatherElapsed results key v).length
    · rw [if_pos h2]
      have h1' : 1 < (gatherElapsed results key v).length := by omega
      rw [RunningStats.pushList_eq _ hmapne, twoPassSampleVariance_eq _ hmapne]
      simp [RunningStats.variance, h1']
    · rw [if_neg h2]
      have hg1 : (gatherElapsed results key v).length = 1 := by
        have h0 : (gatherElapsed results key v).length ≠ 0 := by
          intro h0
          exact hne (List.length_eq_zero.mp h0)
        omega
      rw [RunningStats.pushList_eq _ hmapne]
      simp [RunningStats.variance, hg1]

lemma cliCompare_many (results : List RunResult) (key : String)
    (hk : ∀ r ∈ results, hasKey r.config key = true)
    (hne : ∀ r ∈ results, r.tests ≠ [])
    (hpos : ∀ r ∈ results, ∀ t ∈ r.tests, 0 < t.elapsed)
    (hcomp : allComparable
      ((results.filterMap (fun r => dictLookup r.config key)).dedup) = true)
    (hmany : 1 <
      ((results.filterMap (fun r => dictLookup r.config key)).dedup).length) :
    cliCompare results key = Except.ok (some
      ((sortValues
          ((results.filterMap (fun r => dictLookup r.config key)).dedup)).map
        (fun v =>
          (v,
           some (Real.exp
             (batchMean ((gatherElapsed results key v).map Real.log))),
           Real.exp (Real.sqrt
             (if 2 ≤ (gatherElapsed results key v).length
              then twoPassSampleVariance
                ((gatherElapsed results key v).map Real.log)
              else 0)))))) := by
  unfold cliCompare
  rw [collectValues_ok results key hk]
  show compareValues results key
    (results.filterMap (fun r => dictLookup r.config key)) = _
  unfold compareValues
  rw [if_pos hcomp]
  rw [if_pos (by rw [sortValues_length]; exact hmany)]
  have hflag : (((sortValues
      ((results.filterMap (fun r => dictLookup r.config key)).dedup)).map
      (fun v => RunningGeometricStats.pushAll RunningGeometricStats.init
        (gatherElapsed results key v))).all (fun p => p.2)) = true := by
    apply List.all_eq_true.mpr
    intro p hp
    rcases List.mem_map.mp hp with ⟨v, hv, rfl⟩
    have hv' := (mem_sortValues v _).mp hv
    rw [(pushAll_gather_spec results key v
      (gatherElapsed_pos results key v hpos)
      (gatherElapsed_ne_nil results key v hne hv')).1]
  rw [if_pos hflag]
  congr 1
  congr 1
  apply List.map_congr_left
  intro v hv
  have hv' := (mem_sortValues v _).mp hv
  have h := pushAll_gather_spec results key v
    (gatherElapsed_pos results key v hpos)
    (gatherElapsed_ne_nil results key v hne hv')
  rw [h.2.1, h.2.2]

lemma cliCompare_single (results : List RunResult) (key : String)
    (hk : ∀ r ∈ results, hasKey r.config key = true)
    (hshort :
      ((results.filterMap (fun r => dictLookup r.config key)).dedup).length ≤ 1) :
    cliCompare results key = Except.ok none := by
  unfold cliCompare
  rw [collectValues_ok results key hk]
  show compareValues results key
    (results.filterMap (fun r => dictLookup r.config key)) = _
  unfold compareValues
  rw [if_pos (allComparable_short _ hshort)]
  rw [if_neg (by rw [sortValues_length]; omega)]

/-- The three demonstration runs of the end-to-end comparison scenario:
driver values `"x"`, `"x"`, `"y"` (compression absent, stored as null) with
single samples 2.0, 8.0, 4.0 labelled "op". -/
def demoResults : List RunResult :=
  [{ config := [("driver", ConfigValue.str "x"),
      ("compression", ConfigValue.null)], tests := [⟨"op", 2⟩] },
   { config := [("driver", ConfigValue.str "x"),
      ("compression", ConfigValue.null)], tests := [⟨"op", 8⟩] },
   { config := [("driver", ConfigValue.str "y"),
      ("compression", ConfigValue.null)], tests := [⟨"op", 4⟩] }]

/-- C5 counterexample: two runs whose configs carry the compression values
null (as produced from compression case `"off"`) and `"zstd"` — more than
one distinct value, so the claim demands a comparison report — instead make
`sorted` compare values of incomparable types, and the reporter fails with a
`TypeError` rather than computing and printing the summaries. -/
theorem compare_mixed_types_raises :
    cliCompare
      [{ config := [("compression", ConfigValue.null)], tests := [⟨"op", 2⟩] },
       { config := [("compression", ConfigValue.str "zstd")],
         tests := [⟨"op", 3⟩] }]
      "compression" = Except.error PyError.typeError := rfl

/-- C5 (amended): for every results list in which every config carries the
dimension key, every run holds at least one sample, all elapsed times are
positive, and the occurring values of the dimension are of one comparable
type: when more than one distinct value occurs, the reporter outputs, per
distinct value in sorted order, a geometric summary fed with every sample's
elapsed time from every result whose config has that value (geometric mean
`exp` of the batch mean of the logs, geometric standard deviation from the
batch two-pass variance of the logs); when at most one distinct value
occurs, it produces no comparison output. In particular the three runs with
driver values `"x"`, `"x"`, `"y"` and samples 2.0, 8.0, 4.0 report
geometric mean 4 for `"x"` (fed from both matching runs: sqrt(2*8)) and 4
for `"y"`, and the single-valued compression dimension reports nothing. -/
theorem compare_groups_all_samples :
    (∀ (results : List RunResult) (key : String),
      (∀ r ∈ results, hasKey r.config key = true) →
      (∀ r ∈ results, r.tests ≠ []) →
      (∀ r ∈ results, ∀ t ∈ r.tests, 0 < t.elapsed) →
      allComparable
        ((results.filterMap (fun r => dictLookup r.config key)).dedup) = true →
      1 < ((results.filterMap (fun r => dictLookup r.config key)).dedup).length →
      cliCompare results key = Except.ok (some
        ((sortValues
            ((results.filterMap (fun r => dictLookup r.config key)).dedup)).map
          (fun v =>
            (v,
             some (Real.exp
               (batchMean ((gatherElapsed results key v).map Real.log))),
             Real.exp (Real.sqrt
               (if 2 ≤ (gatherElapsed results key v).length
                then twoPassSampleVariance
                  ((gatherElapsed results key v).map Real.log)
                else 0))))))) ∧
    (∀ (results : List RunResult) (key : String),
      (∀ r ∈ results, hasKey r.config key = true) →
      ((results.filterMap (fun r => dictLookup r.config key)).dedup).length ≤ 1 →
      cliCompare results key = Except.ok none) ∧
    (∃ sx sy : ℝ,
      cliCompare demoResults "driver" =
        Except.ok (some [(ConfigValue.str "x", some 4, sx),
                         (ConfigValue.str "y", some 4, sy)])) ∧
    cliCompare demoResults "compression" = Except.ok none := by
  refine ⟨cliCompare_many, cliCompare_single, ?_, ?_⟩
  · have hk : ∀ r ∈ demoResults, hasKey r.config "driver" = true := by decide
    have hne : ∀ r ∈ demoResults, r.tests ≠ [] := by
      intro r hr
      fin_cases hr <;> simp
    have hpos : ∀ r ∈ demoResults, ∀ t ∈ r.tests, 0 < t.elapsed := by
      intro r hr
      fin_cases hr <;>
        · intro t ht
          simp only [List.mem_singleton] at ht
          subst ht
          norm_num
    have h := cliCompare_many demoResults "driver" hk hne hpos
      (by decide) (by decide)
    have hsv : sortValues ((demoResults.filterMap
        (fun r => dictLookup r.config "driver")).dedup) =
        [ConfigValue.str "x", ConfigValue.str "y"] := by decide
    rw [hsv] at h
    simp only [List.map_cons, List.map_nil] at h
    have hgx : gatherElapsed demoResults "driver" (ConfigValue.str "x") =
        [(2:ℝ), 8] := rfl
    have hgy : gatherElapsed demoResults "driver" (ConfigValue.str "y") =
        [(4:ℝ)] := rfl
    rw [hgx, hgy] at h
    have hm2 : Real.exp (batchMean ([(2:ℝ), 8].map Real.log)) = 4 := by
      unfold batchMean
      simp only [List.map_cons, List.map_nil, List.sum_cons, List.sum_nil,
        List.length_cons, List.length_nil]
      rw [show (8:ℝ) = 2 ^ 3 by norm_num, Real.log_pow]
      rw [show (4:ℝ) = Real.exp (Real.log 4) from
        (Real.exp_log (by norm_num)).symm]
      congr 1
      rw [show (4:ℝ) = 2 ^ 2 by norm_num, Real.log_pow]
      push_cast
      ring
    have hm1 : Real.exp (batchMean ([(4:ℝ)].map Real.log)) = 4 := by
      unfold batchMean
      simp only [List.map_cons, List.map_nil, List.sum_cons, List.sum_nil,
        List.length_cons, List.length_nil]
      rw [add_zero, Nat.cast_one, div_one, Real.exp_log (by norm_num)]
    rw [hm2, hm1] at h
    exact ⟨_, _, h⟩
  · exact cliCompare_single demoResults "compression" (by decide) (by decide)

/-- Witness for C5: the many-value branch applied at the demonstration runs
with all hypotheses discharged, and the single-value branch at a one-run
results list. -/
theorem compare_groups_all_samples_witness :
    cliCompare demoResults "driver" = Except.ok (some
      ((sortValues ((demoResults.filterMap
          (fun r => dictLookup r.config "driver")).dedup)).map
        (fun v =>
          (v,
           some (Real.exp
             (batchMean ((gatherElapsed demoResults "driver" v).map Real.log))),
           Real.exp (Real.sqrt
             (if 2 ≤ (gatherElapsed demoResults "driver" v).length
              then twoPassSampleVariance
                ((gatherElapsed demoResults "driver" v).map Real.log)
              else 0)))))) ∧
    cliCompare [{ config := [("driver", ConfigValue.str "x")], tests := [] }]
      "driver" = Except.ok none :=
  ⟨compare_groups_all_samples.1 demoResults "driver" (by decide)
    (by intro r hr; fin_cases hr <;> simp)
    (by
      intro r hr
      fin_cases hr <;>
        · intro t ht
          simp only [List.mem_singleton] at ht
          subst ht
          norm_num)
    (by decide) (by decide),
   compare_groups_all_samples.2.1
    [{ config := [("driver", ConfigValue.str "x")], tests := [] }] "driver"
    (by decide) (by decide)⟩
